import Mathlib

/-!
Shallow embedding of the StockEstimate supply-timeline projection engine
(functions diffInDays, migrateChemical, calculateChemical, calculateAll in
src/src/components/InventoryTable.jsx) and of the storage-layer migration
(function migrateChemical in server.js and in the Vercel blob storage
module), with proofs of the documented behaviour.

Conventions of the embedding:
* JavaScript numbers are embedded as exact rationals.  The source never
  produces NaN on the inputs considered, and every property treated here is
  an order or structure property, stated over exact arithmetic.
* Calendar dates are embedded as rational day values (the JS Date time
  value divided by 86400000 ms).  diffInDays applies Math.ceil to the
  difference, embedded as Int.ceil.  ISO "YYYY-MM-DD" date strings compare
  lexicographically exactly as their day values compare numerically, so the
  source sort by localeCompare on the eta strings is embedded as a stable
  sort by the day value.
* Optional, missing or falsy JS fields are embedded as Option: none stands
  for undefined, null and the empty string.  The JS idiom x || 0 on a
  numeric field is jsNum below; both a missing field and the number 0 give
  0, so it coincides with Option.getD at default 0 (rationals have no NaN).
* Display label strings (built with toLocaleString, locale dependent) are
  presentation only; no property below mentions them and they are not part
  of the embedded segment record.
-/

/-- Urgency status of a chemical (source: the status strings "critical",
"warning", "low", "ok"). -/
inductive Status where
  | critical
  | warning
  | low
  | ok
deriving Repr, DecidableEq

/-- Kind of a timeline segment (source: the segment type strings "factory",
"gap", "import"; the last is spelled imp because of the Lean keyword). -/
inductive SegType where
  | factory
  | gap
  | imp
deriving Repr, DecidableEq

/-- A JS number that is either the Infinity sentinel or a finite value
(embedded exactly as a rational). -/
inductive ExtQ where
  | inf
  | fin (val : ℚ)
deriving Repr, DecidableEq

/-- One import shipment (source: the entries of the imports array, fields
qty, eta, label).  eta is the arrival date embedded as a day value; none
encodes null, undefined and the empty string, which are all falsy where
the source tests i.eta. -/
structure ImportShipment where
  qty : Option ℚ := none
  eta : Option ℚ := none
  label : Option String := none
deriving Repr, DecidableEq

/-- A chemical record as persisted.  importQty and importEta embed the two
legacy fields (the first is renamed because its source name is a Lean
keyword); none throughout encodes an absent field. -/
structure Chem where
  id : Option String := none
  name : Option String := none
  category : Option String := none
  unit : Option String := none
  factoryStock : Option ℚ := none
  localPurchase : Option ℚ := none
  usePerDay : Option ℚ := none
  (imports : Option (List ImportShipment) := none)
  (importQty : Option ℚ := none)
  (importEta : Option ℚ := none)
  notes : Option String := none
deriving Repr, DecidableEq

/-- The JS idiom x || 0 on an optional numeric field: a missing field and
the number 0 both give 0, any other number gives itself. -/
def jsNum (x : Option ℚ) : ℚ := x.getD 0

/-- The JS idiom s || d on an optional string field: undefined, null and
the empty string are falsy and give the default. -/
def sOr (x : Option String) (d : String) : String :=
  match x with
  | some s => if s = "" then d else s
  | none => d

/-- Source diffInDays(fromDate, toDate): Math.ceil of the difference of the
two Date time values measured in days. -/
def diffInDays (fromDate toDate : ℚ) : ℤ := ⌈toDate - fromDate⌉

/-- Source migrateChemical in InventoryTable.jsx: if the imports field is
defined the record is returned as is; otherwise the legacy single-import
fields are folded into an imports list (only when the legacy quantity is
positive) and removed.  This copy performs no unit normalization. -/
def migrateChemical (chem : Chem) : Chem :=
  match chem.imports with
  | some _ => chem
  | none =>
    let oldQty := jsNum chem.importQty
    let imports : List ImportShipment :=
      if 0 < oldQty then [{ qty := some oldQty, eta := chem.importEta, label := some "" }]
      else []
    { chem with imports := some imports, importQty := none, importEta := none }

namespace Storage

/-- Source migrateChemical in server.js and in the blob storage module: the
same migration as the engine copy, except that it also normalizes a unit of
"kg" to "bags" in both branches, and the legacy branch defaults a missing
or empty unit to "bags". -/
def migrateChemical (c : Chem) : Chem :=
  match c.imports with
  | some _ => if c.unit = some "kg" then { c with unit := some "bags" } else c
  | none =>
    let oldQty := jsNum c.importQty
    let imports : List ImportShipment :=
      if 0 < oldQty then [{ qty := some oldQty, eta := c.importEta, label := some "" }]
      else []
    { c with imports := some imports, importQty := none, importEta := none, unit := some (if c.unit = some "kg" then "bags" else sOr c.unit "bags") }

end Storage

/-- One timeline segment (source: the objects pushed onto the timeline
array).  The display label is not modelled; eta is none for factory and
gap segments, whose source objects carry no eta field, and for undated
shipment segments, where the source pushes a null eta. -/
structure Seg where
  type : SegType
  startDay : ℚ
  endDay : ℚ
  days : ℚ
  qty : ℚ
  eta : Option ℚ := none
deriving Repr, DecidableEq

/-- State of the shipment loop in calculateChemical: the timeline built so
far, the day cursor and the accumulated gap totals. -/
structure LoopState where
  timeline : List Seg
  cursor : ℚ
  totalGapDays : ℚ
  totalGapQty : ℚ
deriving Repr, DecidableEq

/-- Arrival day offset of a dated shipment, source
Math.max(0, diffInDays(today, imp.eta)). -/
def arrivalDay (today eta : ℚ) : ℚ := max 0 ((diffInDays today eta : ℤ) : ℚ)

/-- Body of the loop over sortedImports in calculateChemical, acting on the
loop state.  Inside the loop every shipment has passed the
positive-quantity filter, so jsNum imp.qty is exactly the quantity the
source reads as imp.qty there. -/
def processShipment (today usePerDay : ℚ) (st : LoopState) (imp : ImportShipment) :
    LoopState :=
  let qty := jsNum imp.qty
  let importDays := qty / usePerDay
  match imp.eta with
  | some eta =>
    let etaDay := arrivalDay today eta
    let st1 :=
      if st.cursor < etaDay then
        { timeline := st.timeline ++
            [{ type := .gap, startDay := st.cursor, endDay := etaDay,
               days := etaDay - st.cursor, qty := (etaDay - st.cursor) * usePerDay }]
          cursor := etaDay
          totalGapDays := st.totalGapDays + (etaDay - st.cursor)
          totalGapQty := st.totalGapQty + (etaDay - st.cursor) * usePerDay }
      else st
    { st1 with
      timeline := st1.timeline ++
        [{ type := .imp, startDay := st1.cursor, endDay := st1.cursor + importDays,
           days := importDays, qty := qty, eta := some eta }]
      cursor := st1.cursor + importDays }
  | none =>
    { st with
      timeline := st.timeline ++
        [{ type := .imp, startDay := st.cursor, endDay := st.cursor + importDays,
           days := importDays, qty := qty, eta := none }]
      cursor := st.cursor + importDays }

/-- Sort key of a dated shipment: its eta day value.  Every shipment in the
dated partition has a set eta, so the default is never consulted there. -/
def etaVal (i : ImportShipment) : ℚ := i.eta.getD 0

/-- Insert a shipment in front of the first entry whose eta is not smaller
than its own.  Folding this over the input from the right reproduces the
stable ascending sort the source performs on the eta date strings. -/
def insertByEta (x : ImportShipment) : List ImportShipment → List ImportShipment
  | [] => [x]
  | y :: ys => if etaVal x ≤ etaVal y then x :: y :: ys else y :: insertByEta x ys

/-- Stable ascending sort of the dated shipments by eta. -/
def sortByEta (l : List ImportShipment) : List ImportShipment :=
  l.foldr insertByEta []

/-- Dated positive-quantity shipments, in input order (source filter on
(i.qty || 0) > 0 and a truthy i.eta). -/
def datedImports (l : List ImportShipment) : List ImportShipment :=
  l.filter fun i => decide (0 < jsNum i.qty) && i.eta.isSome

/-- Undated positive-quantity shipments, in input order (source filter on
(i.qty || 0) > 0 and a falsy i.eta). -/
def undatedImports (l : List ImportShipment) : List ImportShipment :=
  l.filter fun i => decide (0 < jsNum i.qty) && i.eta.isNone

/-- Processing order of the shipments: dated ones sorted ascending by eta
(stable), then undated ones in input order. -/
def processingOrder (l : List ImportShipment) : List ImportShipment :=
  sortByEta (datedImports l) ++ undatedImports l

/-- Source expression imports.reduce((sum, i) => sum + (i.qty || 0), 0):
the quantities of all shipments, summed left to right from 0. -/
def totalImportOf (l : List ImportShipment) : ℚ :=
  l.foldl (fun sum i => sum + jsNum i.qty) 0

/-- Initial loop state of calculateChemical: one factory segment covering
the immediate stock when that stock is positive, otherwise an empty
timeline with the cursor still at day 0. -/
def initialState (immediateStock immediateDays : ℚ) : LoopState :=
  if 0 < immediateStock then
    { timeline := [{ type := .factory, startDay := 0, endDay := immediateDays,
                     days := immediateDays, qty := immediateStock }]
      cursor := immediateDays
      totalGapDays := 0
      totalGapQty := 0 }
  else
    { timeline := [], cursor := 0, totalGapDays := 0, totalGapQty := 0 }

/-- Loop state after the whole shipment loop of calculateChemical has run:
the fold of processShipment over the processing order, started on the
initial state. -/
def engineState (today usePerDay immediateStock : ℚ) (imports : List ImportShipment) :
    LoopState :=
  (processingOrder imports).foldl (processShipment today usePerDay)
    (initialState immediateStock (immediateStock / usePerDay))

/-- Threshold classification of calculateChemical by immediate days
remaining. -/
def baseStatus (immediateDays : ℚ) : Status :=
  if immediateDays ≤ 3 then .critical
  else if immediateDays ≤ 10 then .warning
  else if immediateDays ≤ 20 then .low
  else .ok

/-- Gap bump of calculateChemical: a record whose thresholds said ok but
that has gap days ahead is raised to warning. -/
def bumpStatus (totalGapDays : ℚ) (s : Status) : Status :=
  if 0 < totalGapDays ∧ s = .ok then .warning else s

/-- Engine output for one chemical (source: the object returned by
calculateChemical).  chem holds the spread of the migrated record; the
zero-consumption branch returns no timelineEndDay field, hence the
Option. -/
structure Derived where
  chem : Chem
  totalImport : ℚ
  total : ℚ
  immediateStock : ℚ
  immediateDays : ExtQ
  totalDays : ExtQ
  totalMonths : ExtQ
  status : Status
  gapDays : ℚ
  gapQty : ℚ
  timeline : List Seg
  timelineEndDay : Option ℚ
deriving Repr, DecidableEq

/-- Source calculateChemical(chem, today): the full per-record projection. -/
def calculateChemical (chem : Chem) (today : ℚ) : Derived :=
  let c := migrateChemical chem
  let usePerDay := jsNum c.usePerDay
  let imports := c.imports.getD []
  let totalImport := totalImportOf imports
  let factoryStock := jsNum c.factoryStock
  let localPurchase := jsNum c.localPurchase
  let total := factoryStock + totalImport + localPurchase
  let immediateStock := factoryStock + localPurchase
  if usePerDay = 0 then
    { chem := c
      totalImport := totalImport
      total := total
      immediateStock := immediateStock
      immediateDays := .inf
      totalDays := .inf
      totalMonths := .inf
      status := .ok
      gapDays := 0
      gapQty := 0
      timeline := []
      timelineEndDay := none }
  else
    let immediateDays := immediateStock / usePerDay
    let final := engineState today usePerDay immediateStock imports
    let totalDays := total / usePerDay
    let totalMonths := totalDays / 30
    { chem := c
      totalImport := totalImport
      total := total
      immediateStock := immediateStock
      immediateDays := .fin immediateDays
      totalDays := .fin totalDays
      totalMonths := .fin totalMonths
      status := bumpStatus final.totalGapDays (baseStatus immediateDays)
      gapDays := final.totalGapDays
      gapQty := final.totalGapQty
      timeline := final.timeline
      timelineEndDay := some final.cursor }

/-- Portfolio summary counts (source: the summary object of calculateAll). -/
structure Summary where
  total : ℕ
  critical : ℕ
  warning : ℕ
  low : ℕ
  ok : ℕ
  withGaps : ℕ
deriving Repr, DecidableEq

/-- Portfolio-level output (source: the object returned by calculateAll). -/
structure Portfolio where
  chemicals : List Derived
  summary : Summary
  criticalItems : List Derived
  warningItems : List Derived
  gapItems : List Derived
deriving Repr, DecidableEq

/-- Source calculateAll(chemicals, today): maps calculateChemical over the
collection in order and aggregates counts and filtered lists. -/
def calculateAll (chemicals : List Chem) (today : ℚ) : Portfolio :=
  let calculated := chemicals.map (fun c => calculateChemical c today)
  let critical := calculated.filter fun c => decide (c.status = Status.critical)
  let warning := calculated.filter fun c => decide (c.status = Status.warning)
  let low := calculated.filter fun c => decide (c.status = Status.low)
  let ok := calculated.filter fun c => decide (c.status = Status.ok)
  let withGaps := calculated.filter fun c => decide (0 < c.gapDays)
  { chemicals := calculated
    summary := { total := calculated.length, critical := critical.length,
                 warning := warning.length, low := low.length, ok := ok.length,
                 withGaps := withGaps.length }
    criticalItems := critical
    warningItems := warning
    gapItems := withGaps }

/-- Replace the imports collection of a record; used to state how the
engine treats one shipment relative to the rest of the record. -/
def withImports (c : Chem) (l : List ImportShipment) : Chem :=
  { c with imports := some l }

/-- The segment list forms one contiguous chain from day s to day e: each
segment starts where its predecessor ended (at s for the first one), and e
is the end of the last segment (or s itself for an empty list). -/
def chainFrom : ℚ → List Seg → ℚ → Prop
  | s, [], e => s = e
  | s, x :: xs, e => x.startDay = s ∧ chainFrom x.endDay xs e

/-- Decidability of chainFrom, so that concrete timelines can be checked by
evaluation. -/
def chainFromDec : (s : ℚ) → (l : List Seg) → (e : ℚ) → Decidable (chainFrom s l e)
  | s, [], e => inferInstanceAs (Decidable (s = e))
  | s, x :: xs, e =>
    haveI : Decidable (chainFrom x.endDay xs e) := chainFromDec x.endDay xs e
    inferInstanceAs (Decidable (x.startDay = s ∧ chainFrom x.endDay xs e))

instance (s : ℚ) (l : List Seg) (e : ℚ) : Decidable (chainFrom s l e) :=
  chainFromDec s l e

/-! Basic facts about the migration and an explicit description of the two
branches of calculateChemical. -/

theorem migrateChemical_usePerDay (c : Chem) :
    (migrateChemical c).usePerDay = c.usePerDay := by
  cases h : c.imports <;> simp [migrateChemical, h]

theorem migrateChemical_factoryStock (c : Chem) :
    (migrateChemical c).factoryStock = c.factoryStock := by
  cases h : c.imports <;> simp [migrateChemical, h]

theorem migrateChemical_localPurchase (c : Chem) :
    (migrateChemical c).localPurchase = c.localPurchase := by
  cases h : c.imports <;> simp [migrateChemical, h]

theorem migrateChemical_withImports (c : Chem) (l : List ImportShipment) :
    migrateChemical (withImports c l) = withImports c l := rfl

theorem calculateChemical_zero (c : Chem) (today : ℚ)
    (h : jsNum (migrateChemical c).usePerDay = 0) :
    calculateChemical c today =
      { chem := migrateChemical c
        totalImport := totalImportOf ((migrateChemical c).imports.getD [])
        total := jsNum (migrateChemical c).factoryStock +
          totalImportOf ((migrateChemical c).imports.getD []) +
          jsNum (migrateChemical c).localPurchase
        immediateStock := jsNum (migrateChemical c).factoryStock +
          jsNum (migrateChemical c).localPurchase
        immediateDays := .inf
        totalDays := .inf
        totalMonths := .inf
        status := .ok
        gapDays := 0
        gapQty := 0
        timeline := []
        timelineEndDay := none } := by
  simp only [calculateChemical, h, if_pos]

theorem calculateChemical_pos (c : Chem) (today : ℚ)
    (h : ¬ jsNum (migrateChemical c).usePerDay = 0) :
    calculateChemical c today =
      { chem := migrateChemical c
        totalImport := totalImportOf ((migrateChemical c).imports.getD [])
        total := jsNum (migrateChemical c).factoryStock +
          totalImportOf ((migrateChemical c).imports.getD []) +
          jsNum (migrateChemical c).localPurchase
        immediateStock := jsNum (migrateChemical c).factoryStock +
          jsNum (migrateChemical c).localPurchase
        immediateDays := .fin ((jsNum (migrateChemical c).factoryStock +
          jsNum (migrateChemical c).localPurchase) / jsNum (migrateChemical c).usePerDay)
        totalDays := .fin ((jsNum (migrateChemical c).factoryStock +
          totalImportOf ((migrateChemical c).imports.getD []) +
          jsNum (migrateChemical c).localPurchase) / jsNum (migrateChemical c).usePerDay)
        totalMonths := .fin ((jsNum (migrateChemical c).factoryStock +
          totalImportOf ((migrateChemical c).imports.getD []) +
          jsNum (migrateChemical c).localPurchase) / jsNum (migrateChemical c).usePerDay / 30)
        status := bumpStatus
          (engineState today (jsNum (migrateChemical c).usePerDay)
            (jsNum (migrateChemical c).factoryStock + jsNum (migrateChemical c).localPurchase)
            ((migrateChemical c).imports.getD [])).totalGapDays
          (baseStatus ((jsNum (migrateChemical c).factoryStock +
            jsNum (migrateChemical c).localPurchase) / jsNum (migrateChemical c).usePerDay))
        gapDays := (engineState today (jsNum (migrateChemical c).usePerDay)
          (jsNum (migrateChemical c).factoryStock + jsNum (migrateChemical c).localPurchase)
          ((migrateChemical c).imports.getD [])).totalGapDays
        gapQty := (engineState today (jsNum (migrateChemical c).usePerDay)
          (jsNum (migrateChemical c).factoryStock + jsNum (migrateChemical c).localPurchase)
          ((migrateChemical c).imports.getD [])).totalGapQty
        timeline := (engineState today (jsNum (migrateChemical c).usePerDay)
          (jsNum (migrateChemical c).factoryStock + jsNum (migrateChemical c).localPurchase)
          ((migrateChemical c).imports.getD [])).timeline
        timelineEndDay := some (engineState today (jsNum (migrateChemical c).usePerDay)
          (jsNum (migrateChemical c).factoryStock + jsNum (migrateChemical c).localPurchase)
          ((migrateChemical c).imports.getD [])).cursor } := by
  simp only [calculateChemical, h, if_neg, if_false]

theorem migrateChemical_imports_isSome (c : Chem) :
    (migrateChemical c).imports.isSome := by
  cases h : c.imports <;> simp [migrateChemical, h]

theorem migrateChemical_of_imports_isSome (c : Chem) (h : c.imports.isSome) :
    migrateChemical c = c := by
  cases hm : c.imports with
  | none => rw [hm] at h; cases h
  | some l => simp [migrateChemical, hm]

/-- C1.  A record with zero consumption short-circuits: status ok, all
day and month metrics are the Infinity sentinel, both gap totals are 0 and
the timeline is empty. -/
theorem calculateChemical_zeroUse_spec (c : Chem) (today : ℚ)
    (h : jsNum c.usePerDay = 0) :
    (calculateChemical c today).status = Status.ok ∧
    (calculateChemical c today).immediateDays = ExtQ.inf ∧
    (calculateChemical c today).totalDays = ExtQ.inf ∧
    (calculateChemical c today).totalMonths = ExtQ.inf ∧
    (calculateChemical c today).gapDays = 0 ∧
    (calculateChemical c today).gapQty = 0 ∧
    (calculateChemical c today).timeline = [] := by
  have h0 : jsNum (migrateChemical c).usePerDay = 0 := by
    rw [migrateChemical_usePerDay]; exact h
  rw [calculateChemical_zero c today h0]
  exact ⟨rfl, rfl, rfl, rfl, rfl, rfl, rfl⟩

/-- Witness for C1 at a concrete record with usePerDay 0. -/
theorem calculateChemical_zeroUse_spec_witness :
    jsNum ({ usePerDay := some 0, factoryStock := some 5 } : Chem).usePerDay = 0 ∧
    (calculateChemical { usePerDay := some 0, factoryStock := some 5 } 0).status = Status.ok :=
  ⟨by decide,
   (calculateChemical_zeroUse_spec { usePerDay := some 0, factoryStock := some 5 } 0
     (by decide)).1⟩

/-- C8.  Both copies of the migration are idempotent. -/
theorem migrate_idempotent (c : Chem) :
    migrateChemical (migrateChemical c) = migrateChemical c ∧
    Storage.migrateChemical (Storage.migrateChemical c) = Storage.migrateChemical c := by
  have key2 : ∀ d : Chem, d.imports.isSome → d.unit ≠ some "kg" →
      Storage.migrateChemical d = d := by
    intro d hd hu
    cases hm : d.imports with
    | none => rw [hm] at hd; cases hd
    | some l => simp [Storage.migrateChemical, hm, hu]
  refine ⟨migrateChemical_of_imports_isSome _ (migrateChemical_imports_isSome c), ?_⟩
  apply key2
  · cases h : c.imports with
    | some l =>
      by_cases hk : c.unit = some "kg" <;> simp [Storage.migrateChemical, h, hk]
    | none => simp [Storage.migrateChemical, h]
  · cases h : c.imports with
    | some l =>
      by_cases hk : c.unit = some "kg"
      · simp only [Storage.migrateChemical, h, hk, if_pos]
        intro he
        exact absurd (Option.some.inj he) (by decide)
      · simp only [Storage.migrateChemical, h, if_neg hk]
        exact hk
    | none =>
      by_cases hk : c.unit = some "kg"
      · simp only [Storage.migrateChemical, h, hk, if_pos]
        intro he
        exact absurd (Option.some.inj he) (by decide)
      · simp only [Storage.migrateChemical, h, if_neg hk]
        intro he
        have hs := Option.some.inj he
        cases hu : c.unit with
        | none => rw [hu] at hs; simp [sOr] at hs
        | some s =>
          rw [hu] at hs
          by_cases hse : s = ""
          · simp [sOr, hse] at hs
          · simp [sOr, hse] at hs
            rw [hu] at hk
            exact hk (by rw [hs])

/-- C9.  calculateAll maps the engine over the records in order; the alert
lists are order-preserving filters of that list, the summary counts are
their lengths, and the empty collection gives the all-zero portfolio. -/
theorem calculateAll_spec (cs : List Chem) (today : ℚ) :
    (calculateAll cs today).chemicals = cs.map (fun c => calculateChemical c today) ∧
    (calculateAll cs today).criticalItems =
      ((calculateAll cs today).chemicals).filter (fun r => decide (r.status = Status.critical)) ∧
    (calculateAll cs today).warningItems =
      ((calculateAll cs today).chemicals).filter (fun r => decide (r.status = Status.warning)) ∧
    (calculateAll cs today).gapItems =
      ((calculateAll cs today).chemicals).filter (fun r => decide (0 < r.gapDays)) ∧
    (calculateAll cs today).summary.total = (calculateAll cs today).chemicals.length ∧
    (calculateAll cs today).summary.critical = (calculateAll cs today).criticalItems.length ∧
    (calculateAll cs today).summary.warning = (calculateAll cs today).warningItems.length ∧
    (calculateAll cs today).summary.low =
      (((calculateAll cs today).chemicals).filter (fun r => decide (r.status = Status.low))).length ∧
    (calculateAll cs today).summary.ok =
      (((calculateAll cs today).chemicals).filter (fun r => decide (r.status = Status.ok))).length ∧
    (calculateAll cs today).summary.withGaps = (calculateAll cs today).gapItems.length ∧
    calculateAll [] today =
      { chemicals := []
        summary := { total := 0, critical := 0, warning := 0, low := 0, ok := 0, withGaps := 0 }
        criticalItems := []
        warningItems := []
        gapItems := [] } :=
  ⟨rfl, rfl, rfl, rfl, rfl, rfl, rfl, rfl, rfl, rfl, rfl⟩

/-- Counterexample to C7 as stated: the engine copy of the migration
returns an already-migrated record with unit "kg" completely unchanged, so
the unit is not normalized to "bags" there. -/
theorem migrateChemical_kg_not_normalized :
    migrateChemical ({ unit := some "kg", imports := some [] } : Chem) =
      ({ unit := some "kg", imports := some [] } : Chem) ∧
    (migrateChemical ({ unit := some "kg", imports := some [] } : Chem)).unit ≠
      some "bags" := by
  exact ⟨rfl, by decide⟩

/-- C7 amended.  The storage-layer migration behaves exactly as the claim
says: an already-migrated record is returned unchanged except that a unit
of "kg" becomes "bags"; a legacy record gets a one-entry imports list
exactly when the legacy quantity is positive, loses the legacy fields, and
gets the same unit normalization (with a missing or empty unit defaulting
to "bags").  The engine copy in InventoryTable.jsx performs the same
structural migration but never touches the unit. -/
theorem migrate_unit_normalization_spec (c : Chem) :
    (c.imports.isSome →
      migrateChemical c = c ∧
      ({ Storage.migrateChemical c with unit := c.unit } : Chem) = c ∧
      (Storage.migrateChemical c).unit =
        (if c.unit = some "kg" then some "bags" else c.unit)) ∧
    (c.imports = none →
      (migrateChemical c).unit = c.unit ∧
      (Storage.migrateChemical c).imports =
        some (if 0 < jsNum c.importQty then
          [{ qty := some (jsNum c.importQty), eta := c.importEta, label := some "" }]
          else []) ∧
      (Storage.migrateChemical c).importQty = none ∧
      (Storage.migrateChemical c).importEta = none ∧
      (Storage.migrateChemical c).unit =
        some (if c.unit = some "kg" then "bags" else sOr c.unit "bags") ∧
      ({ Storage.migrateChemical c with imports := c.imports, importQty := c.importQty, importEta := c.importEta, unit := c.unit } : Chem) = c ∧
      (migrateChemical c).imports = (Storage.migrateChemical c).imports ∧
      ({ migrateChemical c with imports := c.imports, importQty := c.importQty, importEta := c.importEta } : Chem) = c) := by
  obtain ⟨i0, n0, c0, u0, f0, l0, d0, im0, q0, e0, t0⟩ := c
  constructor
  · intro h
    cases im0 with
    | none => cases h
    | some l =>
      refine ⟨rfl, ?_, ?_⟩ <;>
        by_cases hk : u0 = some "kg" <;>
          simp [Storage.migrateChemical, hk]
  · intro h
    cases im0 with
    | some l => cases h
    | none =>
      by_cases hk : u0 = some "kg" <;>
        simp [migrateChemical, Storage.migrateChemical, hk]

/-- Witness for the amended C7 at a concrete legacy record with unit "kg"
and legacy quantity 7: the storage migration normalizes the unit and builds
the one-entry imports list, the engine copy keeps the unit. -/
theorem migrate_unit_normalization_spec_witness :
    (migrateChemical ({ unit := some "kg", importQty := some 7 } : Chem)).unit =
      some "kg" ∧
    (Storage.migrateChemical ({ unit := some "kg", importQty := some 7 } : Chem)).unit =
      some "bags" ∧
    (Storage.migrateChemical ({ unit := some "kg", importQty := some 7 } : Chem)).imports =
      some [{ qty := some 7, eta := none, label := some "" }] := by
  have h := (migrate_unit_normalization_spec
    ({ unit := some "kg", importQty := some 7 } : Chem)).2 rfl
  refine ⟨h.1, ?_, ?_⟩
  · rw [h.2.2.2.2.1]; decide
  · rw [h.2.1]; decide

/-- C3.  A dated shipment is anchored at max(0, ceil(eta - today)): the
offset is never negative, and equals the ceiling of the date difference
clamped at 0.  When the cursor is before the offset a gap segment
[cursor, offset) of quantity (offset - cursor) * usePerDay is emitted and
added to both gap totals, and the import segment then starts at the offset;
otherwise only the import segment is emitted, at the cursor. -/
theorem processShipment_dated_spec (today u : ℚ) (st : LoopState)
    (imp : ImportShipment) (e : ℚ) (he : imp.eta = some e) :
    0 ≤ arrivalDay today e ∧
    arrivalDay today e = max 0 ((⌈e - today⌉ : ℤ) : ℚ) ∧
    (st.cursor < arrivalDay today e →
      processShipment today u st imp =
        { timeline := st.timeline ++
            [{ type := .gap, startDay := st.cursor, endDay := arrivalDay today e,
               days := arrivalDay today e - st.cursor,
               qty := (arrivalDay today e - st.cursor) * u },
             { type := .imp, startDay := arrivalDay today e,
               endDay := arrivalDay today e + jsNum imp.qty / u,
               days := jsNum imp.qty / u, qty := jsNum imp.qty, eta := some e }]
          cursor := arrivalDay today e + jsNum imp.qty / u
          totalGapDays := st.totalGapDays + (arrivalDay today e - st.cursor)
          totalGapQty := st.totalGapQty + (arrivalDay today e - st.cursor) * u }) ∧
    (arrivalDay today e ≤ st.cursor →
      processShipment today u st imp =
        { st with
          timeline := st.timeline ++
            [{ type := .imp, startDay := st.cursor,
               endDay := st.cursor + jsNum imp.qty / u,
               days := jsNum imp.qty / u, qty := jsNum imp.qty, eta := some e }]
          cursor := st.cursor + jsNum imp.qty / u }) := by
  refine ⟨le_max_left 0 _, rfl, ?_, ?_⟩
  · intro h
    simp only [processShipment, he]
    rw [if_pos h]
    simp [List.append_assoc]
  · intro h
    simp only [processShipment, he]
    rw [if_neg (not_lt.mpr h)]

/-- Witness for C3 at the spec scenario: cursor 3, arrival at day 5,
quantity 100, usePerDay 10 gives the gap [3, 5) of 20 units and the import
[5, 15). -/
theorem processShipment_dated_spec_witness :
    processShipment 0 10 { timeline := [], cursor := 3, totalGapDays := 0, totalGapQty := 0 }
      { qty := some 100, eta := some 5 } =
      { timeline :=
          [{ type := .gap, startDay := 3, endDay := 5, days := 2, qty := 20 },
           { type := .imp, startDay := 5, endDay := 15, days := 10, qty := 100,
             eta := some 5 }]
        cursor := 15
        totalGapDays := 2
        totalGapQty := 20 } := by
  have ha : arrivalDay 0 5 = 5 := by
    simp [arrivalDay, diffInDays]
  have h := (processShipment_dated_spec 0 10
    { timeline := [], cursor := 3, totalGapDays := 0, totalGapQty := 0 }
    { qty := some 100, eta := some 5 } 5 rfl).2.2.1
    (by show (3 : ℚ) < arrivalDay 0 5; rw [ha]; norm_num)
  refine h.trans ?_
  rw [ha]
  norm_num [jsNum]

theorem insertByEta_perm (x : ImportShipment) (l : List ImportShipment) :
    (insertByEta x l).Perm (x :: l) := by
  induction l with
  | nil => exact List.Perm.refl _
  | cons y ys ih =>
    simp only [insertByEta]
    split
    · exact List.Perm.refl _
    · exact (List.Perm.cons y ih).trans (List.Perm.swap x y ys)

theorem sortByEta_perm (l : List ImportShipment) : (sortByEta l).Perm l := by
  induction l with
  | nil => exact List.Perm.refl _
  | cons x xs ih =>
    show (insertByEta x (sortByEta xs)).Perm (x :: xs)
    exact (insertByEta_perm x _).trans (List.Perm.cons x ih)

theorem insertByEta_pairwise (x : ImportShipment) (l : List ImportShipment)
    (h : l.Pairwise (fun a b => etaVal a ≤ etaVal b)) :
    (insertByEta x l).Pairwise (fun a b => etaVal a ≤ etaVal b) := by
  induction l with
  | nil => simp [insertByEta]
  | cons y ys ih =>
    rw [List.pairwise_cons] at h
    simp only [insertByEta]
    split
    case isTrue hxy =>
      rw [List.pairwise_cons]
      refine ⟨?_, List.pairwise_cons.mpr h⟩
      intro z hz
      rcases List.mem_cons.mp hz with rfl | hz
      · exact hxy
      · exact le_trans hxy (h.1 z hz)
    case isFalse hxy =>
      rw [List.pairwise_cons]
      refine ⟨?_, ih h.2⟩
      intro z hz
      rcases List.mem_cons.mp ((insertByEta_perm x ys).mem_iff.mp hz) with rfl | hz
      · exact le_of_not_le hxy
      · exact h.1 z hz

theorem sortByEta_pairwise (l : List ImportShipment) :
    (sortByEta l).Pairwise (fun a b => etaVal a ≤ etaVal b) := by
  induction l with
  | nil => exact List.Pairwise.nil
  | cons x xs ih => exact insertByEta_pairwise x _ ih

theorem insertByEta_filter_eta (x : ImportShipment) (l : List ImportShipment) (e : ℚ) :
    (insertByEta x l).filter (fun i => decide (i.eta = some e)) =
      if x.eta = some e then x :: l.filter (fun i => decide (i.eta = some e))
      else l.filter (fun i => decide (i.eta = some e)) := by
  induction l with
  | nil =>
    by_cases hx : x.eta = some e <;> simp [insertByEta, List.filter_cons, hx]
  | cons y ys ih =>
    simp only [insertByEta]
    split
    case isTrue hxy =>
      by_cases hx : x.eta = some e <;> simp [List.filter_cons, hx]
    case isFalse hxy =>
      by_cases hx : x.eta = some e
      · have hy : ¬ y.eta = some e := by
          intro hy
          exact hxy (le_of_eq (by simp [etaVal, hx, hy]))
        simp [List.filter_cons, hx, hy, ih]
      · by_cases hy : y.eta = some e <;> simp [List.filter_cons, hx, hy, ih]

theorem sortByEta_filter_eta (l : List ImportShipment) (e : ℚ) :
    (sortByEta l).filter (fun i => decide (i.eta = some e)) =
      l.filter (fun i => decide (i.eta = some e)) := by
  induction l with
  | nil => rfl
  | cons x xs ih =>
    show ((insertByEta x (sortByEta xs)).filter _) = _
    rw [insertByEta_filter_eta, List.filter_cons]
    by_cases hx : x.eta = some e <;> simp [hx, ih]

/-- C4.  The processing order is the dated positive-quantity shipments
first (sorted ascending by eta, stably, so that entries with equal eta
keep their input order) followed by the undated positive-quantity
shipments in input order; and an undated shipment only ever appends
an import segment starting exactly at the current cursor, never a gap. -/
theorem processingOrder_spec (l : List ImportShipment) (today u : ℚ)
    (st : LoopState) (imp : ImportShipment) (he : imp.eta = none) :
    processingOrder l = sortByEta (datedImports l) ++ undatedImports l ∧
    datedImports l = l.filter (fun i => decide (0 < jsNum i.qty) && i.eta.isSome) ∧
    undatedImports l = l.filter (fun i => decide (0 < jsNum i.qty) && i.eta.isNone) ∧
    (sortByEta (datedImports l)).Pairwise (fun a b => etaVal a ≤ etaVal b) ∧
    (sortByEta (datedImports l)).Perm (datedImports l) ∧
    (∀ e : ℚ, (sortByEta (datedImports l)).filter (fun i => decide (i.eta = some e)) =
      (datedImports l).filter (fun i => decide (i.eta = some e))) ∧
    processShipment today u st imp =
      { st with
        timeline := st.timeline ++
          [{ type := .imp, startDay := st.cursor,
             endDay := st.cursor + jsNum imp.qty / u,
             days := jsNum imp.qty / u, qty := jsNum imp.qty, eta := none }]
        cursor := st.cursor + jsNum imp.qty / u } := by
  refine ⟨rfl, rfl, rfl, sortByEta_pairwise _, sortByEta_perm _,
    fun e => sortByEta_filter_eta _ e, ?_⟩
  simp only [processShipment, he]

/-- Witness for C4: two shipments share eta day 3 and keep their input
order ahead of it being listed before an undated one; applying the theorem
at that list and an undated shipment. -/
theorem processingOrder_spec_witness :
    processingOrder
      [{ qty := some 5, eta := some 3, label := some "b" },
       { qty := some 5, eta := some 3, label := some "a" },
       { qty := some 2 }] =
      [{ qty := some 5, eta := some 3, label := some "b" },
       { qty := some 5, eta := some 3, label := some "a" },
       { qty := some 2 }] := by
  have h := (processingOrder_spec
    [{ qty := some 5, eta := some 3, label := some "b" },
     { qty := some 5, eta := some 3, label := some "a" },
     { qty := some 2 }] 0 1
    { timeline := [], cursor := 0, totalGapDays := 0, totalGapQty := 0 }
    { qty := some 2 } rfl).1
  exact h.trans (by decide)

/-- C2.  For positive consumption the status is determined by the immediate
days remaining with exact thresholds (3, 10, 20), and a record whose
thresholds would say ok is raised to warning (and no further) exactly
when there are gap days. -/
theorem calculateChemical_status_spec (c : Chem) (today : ℚ) (d : ℚ)
    (hu : 0 < jsNum c.usePerDay)
    (hd : (calculateChemical c today).immediateDays = ExtQ.fin d) :
    (calculateChemical c today).status =
      (if d ≤ 3 then Status.critical
       else if d ≤ 10 then Status.warning
       else if d ≤ 20 then Status.low
       else if 0 < (calculateChemical c today).gapDays then Status.warning
       else Status.ok) := by
  have h0 : ¬ jsNum (migrateChemical c).usePerDay = 0 := by
    rw [migrateChemical_usePerDay]; exact ne_of_gt hu
  rw [calculateChemical_pos c today h0] at hd ⊢
  have hdd : (jsNum (migrateChemical c).factoryStock +
      jsNum (migrateChemical c).localPurchase) / jsNum (migrateChemical c).usePerDay = d := by
    exact ExtQ.fin.inj hd
  rw [← hdd]
  show bumpStatus _ (baseStatus _) = _
  set imm := (jsNum (migrateChemical c).factoryStock +
    jsNum (migrateChemical c).localPurchase) / jsNum (migrateChemical c).usePerDay with himm
  set g := (engineState today (jsNum (migrateChemical c).usePerDay)
    (jsNum (migrateChemical c).factoryStock + jsNum (migrateChemical c).localPurchase)
    ((migrateChemical c).imports.getD [])).totalGapDays with hg
  by_cases h3 : imm ≤ 3
  · simp [baseStatus, bumpStatus, h3]
  · by_cases h10 : imm ≤ 10
    · simp [baseStatus, bumpStatus, h3, h10]
    · by_cases h20 : imm ≤ 20
      · simp [baseStatus, bumpStatus, h3, h10, h20]
      · by_cases hgap : 0 < g
        · simp [baseStatus, bumpStatus, h3, h10, h20, hgap]
        · simp [baseStatus, bumpStatus, h3, h10, h20, hgap]

/-- Witness for C2: 30 units of immediate stock at 10 per day is exactly
3 days, hence critical. -/
theorem calculateChemical_status_spec_witness :
    (calculateChemical
      ({ factoryStock := some 30, usePerDay := some 10, imports := some [] } : Chem)
      0).status = Status.critical := by
  have hd : (calculateChemical
      ({ factoryStock := some 30, usePerDay := some 10, imports := some [] } : Chem)
      0).immediateDays = ExtQ.fin 3 := by
    rw [calculateChemical_pos _ _ (by decide)]
    norm_num [migrateChemical, jsNum]
  have h := calculateChemical_status_spec
    ({ factoryStock := some 30, usePerDay := some 10, imports := some [] } : Chem)
    0 3 (by decide) hd
  rw [h]
  norm_num

theorem chainFrom_append (s e : ℚ) (l : List Seg) (x : Seg)
    (h : chainFrom s l e) (hx : x.startDay = e) :
    chainFrom s (l ++ [x]) x.endDay := by
  induction l generalizing s with
  | nil => exact ⟨hx.trans h.symm, rfl⟩
  | cons y ys ih => exact ⟨h.1, ih y.endDay h.2⟩

theorem processShipment_chain (today u : ℚ) (st : LoopState) (imp : ImportShipment)
    (h : chainFrom 0 st.timeline st.cursor) :
    chainFrom 0 (processShipment today u st imp).timeline
      (processShipment today u st imp).cursor := by
  cases he : imp.eta with
  | none =>
    simp only [processShipment, he]
    exact chainFrom_append 0 st.cursor st.timeline _ h rfl
  | some e =>
    simp only [processShipment, he]
    by_cases hc : st.cursor < arrivalDay today e
    · rw [if_pos hc]
      exact chainFrom_append 0 _ _ _ (chainFrom_append 0 _ _ _ h rfl) rfl
    · rw [if_neg hc]
      exact chainFrom_append 0 _ _ _ h rfl

theorem processShipment_bounds (today u : ℚ) (st : LoopState) (imp : ImportShipment)
    (hq : 0 ≤ jsNum imp.qty / u)
    (h : ∀ s ∈ st.timeline, s.startDay ≤ s.endDay) :
    ∀ s ∈ (processShipment today u st imp).timeline, s.startDay ≤ s.endDay := by
  cases he : imp.eta with
  | none =>
    simp only [processShipment, he]
    intro s hs
    rcases List.mem_append.mp hs with hs | hs
    · exact h s hs
    · rw [List.mem_singleton] at hs
      subst hs
      exact le_add_of_nonneg_right hq
  | some e =>
    simp only [processShipment, he]
    by_cases hc : st.cursor < arrivalDay today e
    · rw [if_pos hc]
      intro s hs
      rcases List.mem_append.mp hs with hs | hs
      · rcases List.mem_append.mp hs with hs | hs
        · exact h s hs
        · rw [List.mem_singleton] at hs
          subst hs
          exact le_of_lt hc
      · rw [List.mem_singleton] at hs
        subst hs
        exact le_add_of_nonneg_right hq
    · rw [if_neg hc]
      intro s hs
      rcases List.mem_append.mp hs with hs | hs
      · exact h s hs
      · rw [List.mem_singleton] at hs
        subst hs
        exact le_add_of_nonneg_right hq

theorem foldl_processShipment_inv (today u : ℚ) (l : List ImportShipment)
    (hl : ∀ i ∈ l, 0 ≤ jsNum i.qty / u) (st : LoopState)
    (h1 : chainFrom 0 st.timeline st.cursor)
    (h2 : ∀ s ∈ st.timeline, s.startDay ≤ s.endDay) :
    chainFrom 0 (l.foldl (processShipment today u) st).timeline
      (l.foldl (processShipment today u) st).cursor ∧
    ∀ s ∈ (l.foldl (processShipment today u) st).timeline, s.startDay ≤ s.endDay := by
  induction l generalizing st with
  | nil => exact ⟨h1, h2⟩
  | cons i is ih =>
    simp only [List.foldl_cons]
    exact ih (fun j hj => hl j (List.mem_cons_of_mem i hj)) _
      (processShipment_chain today u st i h1)
      (processShipment_bounds today u st i (hl i (List.mem_cons_self i is)) h2)

theorem chainFrom_start_le : (s e : ℚ) → (l : List Seg) → chainFrom s l e →
    (∀ x ∈ l, x.startDay ≤ x.endDay) → ∀ x ∈ l, s ≤ x.startDay
  | s, e, [], _, _ => by intro x hx; cases hx
  | s, e, y :: ys, h, hb => by
    intro x hx
    rcases List.mem_cons.mp hx with rfl | hx
    · exact le_of_eq h.1.symm
    · have h1 : s = y.startDay := h.1.symm
      have h2 : y.startDay ≤ y.endDay := hb y (List.mem_cons_self y ys)
      have h3 : y.endDay ≤ x.startDay :=
        chainFrom_start_le y.endDay e ys h.2
          (fun z hz => hb z (List.mem_cons_of_mem y hz)) x hx
      exact le_trans (le_of_eq h1) (le_trans h2 h3)

theorem chainFrom_pairwise : (s e : ℚ) → (l : List Seg) → chainFrom s l e →
    (∀ x ∈ l, x.startDay ≤ x.endDay) →
    l.Pairwise (fun a b => a.startDay ≤ b.startDay)
  | s, e, [], _, _ => List.Pairwise.nil
  | s, e, y :: ys, h, hb => by
    rw [List.pairwise_cons]
    refine ⟨?_, chainFrom_pairwise y.endDay e ys h.2
      (fun w hw => hb w (List.mem_cons_of_mem y hw))⟩
    intro z hz
    have h2 : y.startDay ≤ y.endDay := hb y (List.mem_cons_self y ys)
    have h3 : y.endDay ≤ z.startDay :=
      chainFrom_start_le y.endDay e ys h.2
        (fun w hw => hb w (List.mem_cons_of_mem y hw)) z hz
    exact le_trans h2 h3

theorem chainFrom_getLast : (s e : ℚ) → (l : List Seg) → chainFrom s l e →
    ∀ x, l.getLast? = some x → x.endDay = e
  | s, e, [], _, x, hx => by cases hx
  | s, e, [y], h, x, hx => by
    have hxy : y = x := by simpa using hx
    subst hxy
    exact h.2
  | s, e, y :: z :: ys, h, x, hx => by
    rw [List.getLast?_cons_cons] at hx
    exact chainFrom_getLast y.endDay e (z :: ys) h.2 x hx

theorem mem_processingOrder_qty (l : List ImportShipment) (i : ImportShipment)
    (h : i ∈ processingOrder l) : 0 < jsNum i.qty := by
  rcases List.mem_append.mp h with h | h
  · have hmem : i ∈ datedImports l := (sortByEta_perm (datedImports l)).mem_iff.mp h
    rcases List.mem_filter.mp hmem with ⟨_, hp⟩
    simp at hp
    exact hp.1
  · rcases List.mem_filter.mp h with ⟨_, hp⟩
    simp at hp
    exact hp.1

/-- C5.  Every produced timeline is one contiguous chain starting at day 0:
each segment satisfies endDay >= startDay, startDay is non-decreasing along
the list, each segment starts where the previous one ended, and the
returned timelineEndDay is exactly the endDay of the last segment. -/
theorem calculateChemical_timeline_chain (c : Chem) (today : ℚ)
    (hu : 0 ≤ jsNum c.usePerDay) :
    (∀ s ∈ (calculateChemical c today).timeline, s.startDay ≤ s.endDay) ∧
    ((calculateChemical c today).timeline).Pairwise
      (fun a b => a.startDay ≤ b.startDay) ∧
    ((calculateChemical c today).timeline = [] ∨
      ∃ e, (calculateChemical c today).timelineEndDay = some e ∧
        chainFrom 0 ((calculateChemical c today).timeline) e) ∧
    (∀ x, ((calculateChemical c today).timeline).getLast? = some x →
      (calculateChemical c today).timelineEndDay = some x.endDay) := by
  by_cases h0 : jsNum (migrateChemical c).usePerDay = 0
  · rw [calculateChemical_zero c today h0]
    refine ⟨?_, ?_, Or.inl rfl, ?_⟩
    · intro s hs; cases hs
    · exact List.Pairwise.nil
    · intro x hx; cases hx
  · have hpos : 0 < jsNum (migrateChemical c).usePerDay := by
      rw [migrateChemical_usePerDay] at h0 ⊢
      exact lt_of_le_of_ne hu (Ne.symm h0)
    rw [calculateChemical_pos c today h0]
    have hinit1 : chainFrom 0
        (initialState
          (jsNum (migrateChemical c).factoryStock + jsNum (migrateChemical c).localPurchase)
          ((jsNum (migrateChemical c).factoryStock + jsNum (migrateChemical c).localPurchase) /
            jsNum (migrateChemical c).usePerDay)).timeline
        (initialState
          (jsNum (migrateChemical c).factoryStock + jsNum (migrateChemical c).localPurchase)
          ((jsNum (migrateChemical c).factoryStock + jsNum (migrateChemical c).localPurchase) /
            jsNum (migrateChemical c).usePerDay)).cursor := by
      unfold initialState
      by_cases him : 0 < jsNum (migrateChemical c).factoryStock +
          jsNum (migrateChemical c).localPurchase
      · rw [if_pos him]
        exact ⟨rfl, rfl⟩
      · rw [if_neg him]
        exact rfl
    have hinit2 : ∀ s ∈ (initialState
        (jsNum (migrateChemical c).factoryStock + jsNum (migrateChemical c).localPurchase)
        ((jsNum (migrateChemical c).factoryStock + jsNum (migrateChemical c).localPurchase) /
          jsNum (migrateChemical c).usePerDay)).timeline, s.startDay ≤ s.endDay := by
      unfold initialState
      by_cases him : 0 < jsNum (migrateChemical c).factoryStock +
          jsNum (migrateChemical c).localPurchase
      · rw [if_pos him]
        intro s hs
        rw [List.mem_singleton] at hs
        subst hs
        exact div_nonneg (le_of_lt him) (le_of_lt hpos)
      · rw [if_neg him]
        intro s hs
        cases hs
    have hq : ∀ i ∈ processingOrder ((migrateChemical c).imports.getD []),
        0 ≤ jsNum i.qty / jsNum (migrateChemical c).usePerDay :=
      fun i hi => div_nonneg (le_of_lt (mem_processingOrder_qty _ i hi)) (le_of_lt hpos)
    have hmain := foldl_processShipment_inv today (jsNum (migrateChemical c).usePerDay)
      (processingOrder ((migrateChemical c).imports.getD [])) hq _ hinit1 hinit2
    refine ⟨hmain.2, chainFrom_pairwise 0 _ _ hmain.1 hmain.2,
      Or.inr ⟨_, rfl, hmain.1⟩, ?_⟩
    intro x hx
    exact congrArg some (chainFrom_getLast 0 _ _ hmain.1 x hx).symm

/-- Witness for C5 at a record with immediate stock and one undated
shipment: the timeline ends with the import segment closing at day 13, and
that is the reported timelineEndDay. -/
theorem calculateChemical_timeline_chain_witness :
    (calculateChemical
      ({ factoryStock := some 30, usePerDay := some 10, imports := some [{ qty := some 100 }] } : Chem)
      0).timelineEndDay =
      some 13 := by
  have h := (calculateChemical_timeline_chain
    ({ factoryStock := some 30, usePerDay := some 10, imports := some [{ qty := some 100 }] } : Chem)
    0 (by decide)).2.2.2
  have hlast : ((calculateChemical
      ({ factoryStock := some 30, usePerDay := some 10, imports := some [{ qty := some 100 }] } : Chem)
      0).timeline).getLast? =
      some { type := .imp, startDay := 3, endDay := 13, days := 10, qty := 100 } := by
    rw [calculateChemical_pos _ _ (by decide)]
    show (engineState 0 (jsNum (some 10 : Option ℚ)) _ _).timeline.getLast? = _
    norm_num [engineState, initialState, processingOrder, datedImports, undatedImports,
      sortByEta, processShipment, jsNum, migrateChemical, List.filter]
  have := h _ hlast
  simpa using this

/-- Counterexample to C6 as stated: a shipment with negative quantity is
not excluded from the totals.  With factory stock 10 and one shipment of
quantity -5, totalImport is -5 (not 0) and total is 5 (not 10), although
the timeline treats the shipment as absent. -/
theorem negativeShipment_affects_totals :
    (calculateChemical
      ({ factoryStock := some 10, usePerDay := some 0, imports := some [{ qty := some (-5) }] } : Chem)
      0).totalImport = -5 ∧
    (calculateChemical
      ({ factoryStock := some 10, usePerDay := some 0, imports := some [] } : Chem)
      0).totalImport = 0 ∧
    (calculateChemical
      ({ factoryStock := some 10, usePerDay := some 0, imports := some [{ qty := some (-5) }] } : Chem)
      0).total = 5 ∧
    (calculateChemical
      ({ factoryStock := some 10, usePerDay := some 0, imports := some [] } : Chem)
      0).total = 10 ∧
    (calculateChemical
      ({ factoryStock := some 10, usePerDay := some 0, imports := some [{ qty := some (-5) }] } : Chem)
      0).timeline =
      (calculateChemical
        ({ factoryStock := some 10, usePerDay := some 0, imports := some [] } : Chem)
        0).timeline := by
  rw [calculateChemical_zero _ _ (by decide), calculateChemical_zero _ _ (by decide)]
  refine ⟨?_, ?_, ?_, ?_, rfl⟩ <;>
    norm_num [totalImportOf, jsNum, migrateChemical]

theorem foldl_qty_shift (l : List ImportShipment) (a q : ℚ) :
    List.foldl (fun sum i => sum + jsNum i.qty) (a + q) l =
      List.foldl (fun sum i => sum + jsNum i.qty) a l + q := by
  induction l generalizing a with
  | nil => rfl
  | cons j js ih =>
    rw [List.foldl_cons, List.foldl_cons, add_right_comm]
    exact ih _

theorem totalImportOf_insert (pre post : List ImportShipment) (i : ImportShipment) :
    totalImportOf (pre ++ i :: post) = totalImportOf (pre ++ post) + jsNum i.qty := by
  unfold totalImportOf
  rw [List.foldl_append, List.foldl_append, List.foldl_cons, foldl_qty_shift]

theorem datedImports_insert_nonpos (pre post : List ImportShipment)
    (i : ImportShipment) (h : ¬ 0 < jsNum i.qty) :
    datedImports (pre ++ i :: post) = datedImports (pre ++ post) := by
  unfold datedImports
  rw [List.filter_append, List.filter_append, List.filter_cons]
  simp [h]

theorem undatedImports_insert_nonpos (pre post : List ImportShipment)
    (i : ImportShipment) (h : ¬ 0 < jsNum i.qty) :
    undatedImports (pre ++ i :: post) = undatedImports (pre ++ post) := by
  unfold undatedImports
  rw [List.filter_append, List.filter_append, List.filter_cons]
  simp [h]

theorem processingOrder_insert_nonpos (pre post : List ImportShipment)
    (i : ImportShipment) (h : ¬ 0 < jsNum i.qty) :
    processingOrder (pre ++ i :: post) = processingOrder (pre ++ post) := by
  unfold processingOrder
  rw [datedImports_insert_nonpos pre post i h, undatedImports_insert_nonpos pre post i h]

/-- C6 amended.  A shipment whose quantity is 0 or missing is excluded
entirely (totals, day metrics and timeline are as if it did not exist,
apart from the echoed record itself).  A shipment with quantity <= 0 never
contributes a timeline segment and leaves the gap totals, the status, the
immediate metrics and timelineEndDay unchanged, but its (possibly
negative) coerced quantity is still added into totalImport and total. -/
theorem nonpositiveShipment_spec (c : Chem) (today : ℚ)
    (pre post : List ImportShipment) (i : ImportShipment)
    (h : jsNum i.qty ≤ 0) :
    (calculateChemical (withImports c (pre ++ i :: post)) today).timeline =
      (calculateChemical (withImports c (pre ++ post)) today).timeline ∧
    (calculateChemical (withImports c (pre ++ i :: post)) today).gapDays =
      (calculateChemical (withImports c (pre ++ post)) today).gapDays ∧
    (calculateChemical (withImports c (pre ++ i :: post)) today).gapQty =
      (calculateChemical (withImports c (pre ++ post)) today).gapQty ∧
    (calculateChemical (withImports c (pre ++ i :: post)) today).status =
      (calculateChemical (withImports c (pre ++ post)) today).status ∧
    (calculateChemical (withImports c (pre ++ i :: post)) today).immediateDays =
      (calculateChemical (withImports c (pre ++ post)) today).immediateDays ∧
    (calculateChemical (withImports c (pre ++ i :: post)) today).immediateStock =
      (calculateChemical (withImports c (pre ++ post)) today).immediateStock ∧
    (calculateChemical (withImports c (pre ++ i :: post)) today).timelineEndDay =
      (calculateChemical (withImports c (pre ++ post)) today).timelineEndDay ∧
    (calculateChemical (withImports c (pre ++ i :: post)) today).totalImport =
      (calculateChemical (withImports c (pre ++ post)) today).totalImport + jsNum i.qty ∧
    (calculateChemical (withImports c (pre ++ i :: post)) today).total =
      (calculateChemical (withImports c (pre ++ post)) today).total + jsNum i.qty ∧
    (jsNum i.qty = 0 →
      (calculateChemical (withImports c (pre ++ i :: post)) today).totalImport =
        (calculateChemical (withImports c (pre ++ post)) today).totalImport ∧
      (calculateChemical (withImports c (pre ++ i :: post)) today).total =
        (calculateChemical (withImports c (pre ++ post)) today).total ∧
      (calculateChemical (withImports c (pre ++ i :: post)) today).totalDays =
        (calculateChemical (withImports c (pre ++ post)) today).totalDays ∧
      (calculateChemical (withImports c (pre ++ i :: post)) today).totalMonths =
        (calculateChemical (withImports c (pre ++ post)) today).totalMonths) := by
  have hnp : ¬ 0 < jsNum i.qty := not_lt.mpr h
  have ht := totalImportOf_insert pre post i
  by_cases h0 : jsNum c.usePerDay = 0
  · have h01 : jsNum (migrateChemical (withImports c (pre ++ i :: post))).usePerDay = 0 := h0
    have h02 : jsNum (migrateChemical (withImports c (pre ++ post))).usePerDay = 0 := h0
    rw [calculateChemical_zero _ _ h01, calculateChemical_zero _ _ h02]
    refine ⟨rfl, rfl, rfl, rfl, rfl, rfl, rfl, ?_, ?_, ?_⟩
    · exact ht
    · show jsNum c.factoryStock + totalImportOf (pre ++ i :: post) + jsNum c.localPurchase =
        jsNum c.factoryStock + totalImportOf (pre ++ post) + jsNum c.localPurchase +
          jsNum i.qty
      rw [ht]; ring
    · intro hq0
      have ht0 : totalImportOf (pre ++ i :: post) = totalImportOf (pre ++ post) := by
        rw [ht, hq0, add_zero]
      refine ⟨ht0, ?_, rfl, rfl⟩
      show jsNum c.factoryStock + totalImportOf (pre ++ i :: post) + jsNum c.localPurchase =
        jsNum c.factoryStock + totalImportOf (pre ++ post) + jsNum c.localPurchase
      rw [ht0]
  · have h01 : ¬ jsNum (migrateChemical (withImports c (pre ++ i :: post))).usePerDay = 0 := h0
    have h02 : ¬ jsNum (migrateChemical (withImports c (pre ++ post))).usePerDay = 0 := h0
    rw [calculateChemical_pos _ _ h01, calculateChemical_pos _ _ h02]
    have hES : engineState today (jsNum c.usePerDay)
        (jsNum c.factoryStock + jsNum c.localPurchase) (pre ++ i :: post) =
      engineState today (jsNum c.usePerDay)
        (jsNum c.factoryStock + jsNum c.localPurchase) (pre ++ post) := by
      unfold engineState
      rw [processingOrder_insert_nonpos pre post i hnp]
    refine ⟨?_, ?_, ?_, ?_, rfl, rfl, ?_, ?_, ?_, ?_⟩
    · exact congrArg LoopState.timeline hES
    · exact congrArg LoopState.totalGapDays hES
    · exact congrArg LoopState.totalGapQty hES
    · exact congrArg (fun st : LoopState => bumpStatus st.totalGapDays
        (baseStatus ((jsNum c.factoryStock + jsNum c.localPurchase) /
          jsNum c.usePerDay))) hES
    · exact congrArg (fun st : LoopState => some st.cursor) hES
    · exact ht
    · show jsNum c.factoryStock + totalImportOf (pre ++ i :: post) + jsNum c.localPurchase =
        jsNum c.factoryStock + totalImportOf (pre ++ post) + jsNum c.localPurchase +
          jsNum i.qty
      rw [ht]; ring
    · intro hq0
      have ht0 : totalImportOf (pre ++ i :: post) = totalImportOf (pre ++ post) := by
        rw [ht, hq0, add_zero]
      refine ⟨ht0, ?_, ?_, ?_⟩
      · show jsNum c.factoryStock + totalImportOf (pre ++ i :: post) + jsNum c.localPurchase =
          jsNum c.factoryStock + totalImportOf (pre ++ post) + jsNum c.localPurchase
        rw [ht0]
      · exact congrArg (fun t : ℚ => ExtQ.fin ((jsNum c.factoryStock + t +
          jsNum c.localPurchase) / jsNum c.usePerDay)) ht0
      · exact congrArg (fun t : ℚ => ExtQ.fin ((jsNum c.factoryStock + t +
          jsNum c.localPurchase) / jsNum c.usePerDay / 30)) ht0

/-- Witness for the amended C6: inserting a zero-quantity shipment in front
of a one-shipment list changes nothing in the timeline. -/
theorem nonpositiveShipment_spec_witness :
    (calculateChemical (withImports
      ({ factoryStock := some 30, usePerDay := some 10 } : Chem)
      ([] ++ ({ qty := some 0 } : ImportShipment) :: [{ qty := some 100 }])) 0).timeline =
    (calculateChemical (withImports
      ({ factoryStock := some 30, usePerDay := some 10 } : Chem)
      ([] ++ [{ qty := some 100 }])) 0).timeline :=
  (nonpositiveShipment_spec { factoryStock := some 30, usePerDay := some 10 } 0
    [] [{ qty := some 100 }] { qty := some 0 } (by decide)).1
